import Mathlib

/-!
Verification development for the cell-eater engine core.

Part I embeds the state-hash computation of src/sync/state-delta.ts
(function computeSnapshotHash, also present compiled in
dist/sync/state-delta.js) over a shallow model of sparse snapshots and
the component registry.

The streaming hash combine (src/hash/xxhash) and the snapshot emitter
(src/core/snapshot) are not part of the source tree; they are modelled
from the spec where needed, and each such definition is marked
"Modelled from the spec:" in its doc comment.

Machine integers are modelled as Nat with explicit reduction mod 2^32,
mirroring the 32-bit coercions of the JavaScript source.
-/

/-- The constant 2^32, the JavaScript 32-bit unsigned range used by the hash. -/
def M32 : Nat := 4294967296

/-- Rotate a value already reduced mod 2^32 left by r bits (32-bit rotate). -/
def rotl32 (x r : Nat) : Nat :=
  ((x * 2 ^ r) + x / 2 ^ (32 - r)) % M32

/-- Modelled from the spec: the streaming 32-bit combine of the HASH
component (spec 4.3; src/hash/xxhash is not in the source tree).  An
xxHash32-family round: the value is folded in with a prime multiply, a
rotate and a second prime multiply, so combining 0 is not a no-op.  All
arithmetic is reduced mod 2^32 as the JavaScript coercions do. -/
def xxhash32Combine (h v : Nat) : Nat :=
  rotl32 ((h + (v % M32) * 3266489917) % M32) 17 * 668265263 % M32

/-- A registered component: its name and the declared field order
(src/core/component registry as used by computeSnapshotHash). -/
structure Component where
  name : String
  fieldNames : List String
deriving DecidableEq

/-- Per-entity metadata record of a sparse snapshot (eid, type name,
optional client id), as read by state-delta.ts. -/
structure EntityMeta where
  eid : Nat
  etype : String
  clientId : Option Nat
deriving DecidableEq

/-- A sparse snapshot.  The fields read by computeSnapshotHash (frame,
entityCount, entityMeta, componentData) are taken from state-delta.ts;
the remaining fields (seq, postTick, string tables, RNG state, id
allocator state) are modelled from the spec, section 3, and are listed
here to make explicit that the hash does not depend on them.  Each
component buffer is laid out field by field; it is represented as the
list of its per-field columns, each column holding entityCount raw
values. -/
structure SparseSnapshot where
  frame : Nat
  seq : Nat
  postTick : Bool
  entityCount : Nat
  entityMeta : List EntityMeta
  componentData : List (String × List (List Nat))
  stringTables : List (String × List (String × Nat))
  rngState : Nat × Nat
  allocNext : Nat
  allocFree : List Nat
  allocGen : List Nat
deriving DecidableEq

/-- Inner loop of computeSnapshotHash: for each declared field of a
component, fold the raw stored value of entity index i into the hash
(the source reads packedArr = the next field column and hashes
value >>> 0; an out-of-range read models JavaScript undefined >>> 0 = 0). -/
def hashFieldCols : List String → List (List Nat) → Nat → Nat → Nat
  | [], _, _, h => h
  | _ :: fns, cols, i, h =>
      hashFieldCols fns cols.tail i (xxhash32Combine h ((cols.headD []).getD i 0 % M32))

/-- Middle loop of computeSnapshotHash: fold the component data of
entity index i over the snapshot componentData, skipping names absent
from the registry. -/
def hashEntityComponents (reg : List Component)
    (cd : List (String × List (List Nat))) (i : Nat) (h : Nat) : Nat :=
  cd.foldl (fun h p =>
    match reg.find? (fun c => c.name == p.1) with
    | none => h
    | some comp => hashFieldCols comp.fieldNames p.2 i h) h

/-- Outer loop of computeSnapshotHash: for each entity (in snapshot
order, i.e. ascending id), fold its eid and then its component data. -/
def hashEntities (reg : List Component) (cd : List (String × List (List Nat))) :
    List EntityMeta → Nat → Nat → Nat
  | [], _, h => h
  | m :: rest, i, h =>
      hashEntities reg cd rest (i + 1)
        (hashEntityComponents reg cd i (xxhash32Combine h m.eid))

/-- computeSnapshotHash from src/sync/state-delta.ts: starting from 0,
combine the frame, the entity count, then for each entity its eid
followed by its field values. -/
def computeSnapshotHash (reg : List Component) (s : SparseSnapshot) : Nat :=
  hashEntities reg s.componentData s.entityMeta 0
    (xxhash32Combine (xxhash32Combine 0 s.frame) s.entityCount)

/-- Follows the spec's words (section 3, State hash): the raw values of
every declared field of one component, for the entity at index i. -/
def specFieldVals : List String → List (List Nat) → Nat → List Nat
  | [], _, _ => []
  | _ :: fns, cols, i => (cols.headD []).getD i 0 :: specFieldVals fns cols.tail i

/-- Follows the spec's words: for the entity at index i, the stored
values of every component in registration order and every field in
declared order. -/
def specEntityVals (reg : List Component)
    (cd : List (String × List (List Nat))) (i : Nat) : List Nat :=
  cd.flatMap (fun p =>
    match reg.find? (fun c => c.name == p.1) with
    | none => []
    | some comp => specFieldVals comp.fieldNames p.2 i)

/-- Follows the spec's words: for each entity in snapshot order, its id
followed by its field values. -/
def specEntitySeq (reg : List Component) (cd : List (String × List (List Nat))) :
    List EntityMeta → Nat → List Nat
  | [], _ => []
  | m :: rest, i => m.eid :: (specEntityVals reg cd i ++ specEntitySeq reg cd rest (i + 1))

/-- Follows the spec's words (section 3, State hash): the flat sequence
the state hash is computed over — frame, entity count, then for each
entity in order its id and its raw field values. -/
def specHashSequence (reg : List Component) (s : SparseSnapshot) : List Nat :=
  s.frame :: s.entityCount :: specEntitySeq reg s.componentData s.entityMeta 0

/-- An entity of the world model used for snapshot emission: id, type
name, the syncNone flag of its type, optional client id, and its stored
field values in registration order then declared field order. -/
structure WEntity where
  eid : Nat
  etype : String
  syncNone : Bool
  clientId : Option Nat
  values : List (List Nat)
deriving DecidableEq

/-- The world state as far as snapshot emission needs it: frame,
sequence number, entities, RNG state. -/
structure SDWorld where
  frame : Nat
  seq : Nat
  entities : List WEntity
  rngState : Nat × Nat
deriving DecidableEq

/-- Insert an entity into a list sorted by ascending eid. -/
def insertByEid (x : WEntity) : List WEntity → List WEntity
  | [] => [x]
  | y :: ys => if x.eid ≤ y.eid then x :: y :: ys else y :: insertByEid x ys

/-- Insertion sort by ascending eid (snapshots enumerate entities in
ascending id order). -/
def sortByEid : List WEntity → List WEntity
  | [] => []
  | x :: xs => insertByEid x (sortByEid xs)

/-- One packed field column per declared field of component index j,
field indices counting up from k: each column holds, for every live
entity in order, its raw stored value. -/
def packFieldCols (live : List WEntity) : List String → Nat → Nat → List (List Nat)
  | [], _, _ => []
  | _ :: fns, j, k =>
      live.map (fun e => (e.values.getD j []).getD k 0) :: packFieldCols live fns j (k + 1)

/-- Component buffers of the snapshot, in registration order, the
component at position j reading slice j of each entity's values. -/
def packComponents (live : List WEntity) : List Component → Nat → List (String × List (List Nat))
  | [], _ => []
  | c :: reg, j => (c.name, packFieldCols live c.fieldNames j 0) :: packComponents live reg (j + 1)

/-- Modelled from the spec: getSparseSnapshot (src/core/snapshot is not
in the source tree; spec sections 3 and 4.4).  Entities whose type is
syncNone are excluded; the remaining entities are sorted by ascending
id; columns are packed field by field for exactly the entities present;
string tables and allocator state are out of scope for the hash claims
and left empty. -/
def getSparseSnapshot (reg : List Component) (w : SDWorld) (postTick : Bool) : SparseSnapshot :=
  let live := sortByEid (w.entities.filter (fun e => !e.syncNone))
  { frame := w.frame
    seq := w.seq
    postTick := postTick
    entityCount := live.length
    entityMeta := live.map (fun e => { eid := e.eid, etype := e.etype, clientId := e.clientId })
    componentData := packComponents live reg 0
    stringTables := []
    rngState := w.rngState
    allocNext := 0
    allocFree := []
    allocGen := [] }

/-!
Part II models the client-side-prediction InputHistory
(src/prediction/input-history.ts).  The implementation file is not in
the source tree — only its unit tests (tests/test-csp-input-history.ts
and src/prediction/input-history.test.ts) — so the class is modelled
from the spec, section 4.5, with the sentinel and boundary behaviour
pinned down by those tests.
-/

/-- A JavaScript input-field value.  Nested objects are compared by
reference identity, never deeply; a reference is modelled as an object
identity number. -/
inductive IVal where
  | num (n : Int)
  | vstr (s : String)
  | vbool (b : Bool)
  | ref (oid : Nat)
deriving DecidableEq, BEq

/-- Input data: a JavaScript object of named action values, modelled as
a key-value list (keys assumed distinct as JS object keys are). -/
abbrev InputData := List (String × IVal)

/-- Value bound to a key, if any. -/
def lookupVal (k : String) (d : InputData) : Option IVal :=
  (d.find? (fun kv => kv.1 == k)).map (fun kv => kv.2)

/-- Modelled from the spec: shallow input equality (spec 4.5, confirm):
same key count, and every key of a maps in b to an equal value under
JavaScript equality — nested objects compare by reference identity. -/
def inputsEqual (a b : InputData) : Bool :=
  a.length == b.length &&
  a.all (fun kv =>
    match lookupVal kv.1 b with
    | some w => kv.2 == w
    | none => false)

/-- One stored input for a (frame, client) slot: its data and the
CONFIRMED bit. -/
structure InputEntry where
  data : InputData
  confirmed : Bool
deriving DecidableEq

/-- One ring-buffer slot: the frame it holds, the per-client inputs,
and the explicit fully-confirmed flag. -/
structure FrameSet where
  frame : Nat
  inputs : List (Nat × InputEntry)
  fullyConfirmed : Bool
deriving DecidableEq

/-- Entry of a client in a frame set. -/
def lookupEntry (c : Nat) : List (Nat × InputEntry) → Option InputEntry
  | [] => none
  | (c', e) :: rest => if c' = c then some e else lookupEntry c rest

/-- Write the entry of client c, replacing an existing binding. -/
def upsertEntry (c : Nat) (e : InputEntry) : List (Nat × InputEntry) → List (Nat × InputEntry)
  | [] => [(c, e)]
  | (c', e') :: rest => if c' = c then (c, e) :: rest else (c', e') :: upsertEntry c e rest

/-- Write the last-known data of client c. -/
def upsertData (c : Nat) (d : InputData) : List (Nat × InputData) → List (Nat × InputData)
  | [] => [(c, d)]
  | (c', d') :: rest => if c' = c then (c, d) :: rest else (c', d') :: upsertData c d rest

/-- Last-known data of client c, if any. -/
def lookupData (c : Nat) : List (Nat × InputData) → Option InputData
  | [] => none
  | (c', d) :: rest => if c' = c then some d else lookupData c rest

/-- Prediction strategy for missing inputs (spec 4.5): idle predicts
empty data, repeat-last predicts the client's last-known data. -/
inductive PredStrategy where
  | idle
  | repeatLast
deriving DecidableEq

/-- Modelled from the spec: the CSP InputHistory state
(src/prediction/input-history.ts is not in the source tree; spec 4.5).
A ring buffer of frame mod capacity slots plus the active-client set,
the local client id, last-known inputs for the repeat-last strategy,
and the oldest/newest frame trackers.  clearBoundary records the
highest clearOldFrames threshold so far, so that later writes below it
cannot regress oldestFrame (regression tests in
tests/test-csp-input-history.ts). -/
structure InputHistory where
  capacity : Nat
  buffer : List (Option FrameSet)
  oldestFrame : Nat
  newestFrame : Int
  clearBoundary : Nat
  localClientId : Nat
  hasLocalClient : Bool
  activeClients : List Nat
  lastKnownInputs : List (Nat × InputData)
  strategy : PredStrategy
deriving DecidableEq

/-- Fresh history: empty ring of the given capacity (default 128);
the empty sentinels are oldestFrame 0 and newestFrame -1. -/
def InputHistory.new (cap : Nat) : InputHistory :=
  { capacity := cap
    buffer := List.replicate cap none
    oldestFrame := 0
    newestFrame := -1
    clearBoundary := 0
    localClientId := 0
    hasLocalClient := false
    activeClients := []
    lastKnownInputs := []
    strategy := .repeatLast }

/-- The frame set currently holding frame f, if the slot f mod capacity
is resident and holds exactly frame f. -/
def getFrameSet (h : InputHistory) (f : Nat) : Option FrameSet :=
  match h.buffer.getD (f % h.capacity) none with
  | some fs => if fs.frame = f then some fs else none
  | none => none

/-- Store a frame set back into its ring slot. -/
def putFrameSet (h : InputHistory) (fs : FrameSet) : InputHistory :=
  { h with buffer := h.buffer.set (fs.frame % h.capacity) (some fs) }

/-- Get or create the frame set for frame f; creation overwrites any
resident slot holding a different frame (ring semantics, spec 4.5) and
updates the newest/oldest trackers.  A write below clearBoundary never
regresses oldestFrame. -/
def getOrCreateFrameSet (h : InputHistory) (f : Nat) : InputHistory × FrameSet :=
  match getFrameSet h f with
  | some fs => (h, fs)
  | none =>
      let fs : FrameSet := { frame := f, inputs := [], fullyConfirmed := false }
      let oldest :=
        if f < h.clearBoundary then h.oldestFrame
        else if h.newestFrame = -1 then f
        else min h.oldestFrame f
      ({ h with buffer := h.buffer.set (f % h.capacity) (some fs)
                oldestFrame := oldest
                newestFrame := max h.newestFrame (f : Int) }, fs)

/-- store_local (spec 4.5): write a CONFIRMED input and update the
client's last-known record. -/
def storeLocalInput (h : InputHistory) (f c : Nat) (d : InputData) : InputHistory :=
  let (h1, fs) := getOrCreateFrameSet h f
  let h2 := putFrameSet h1 { fs with inputs := upsertEntry c { data := d, confirmed := true } fs.inputs }
  { h2 with lastKnownInputs := upsertData c d h2.lastKnownInputs }

/-- store_predicted (spec 4.5): write a PREDICTED input if and only if
no CONFIRMED input exists for that slot. -/
def storePredictedInput (h : InputHistory) (f c : Nat) (d : InputData) : InputHistory :=
  let (h1, fs) := getOrCreateFrameSet h f
  match lookupEntry c fs.inputs with
  | some e =>
      if e.confirmed then h1
      else putFrameSet h1 { fs with inputs := upsertEntry c { data := d, confirmed := false } fs.inputs }
  | none =>
      putFrameSet h1 { fs with inputs := upsertEntry c { data := d, confirmed := false } fs.inputs }

/-- confirm (spec 4.5): no prior entry — false; prior entry already
CONFIRMED — false with no change; otherwise mark the slot CONFIRMED
with the new data and report whether the prediction differed under
shallow equality. -/
def confirmInput (h : InputHistory) (f c : Nat) (d : InputData) : InputHistory × Bool :=
  match getFrameSet h f with
  | none => (h, false)
  | some fs =>
      match lookupEntry c fs.inputs with
      | none => (h, false)
      | some e =>
          if e.confirmed then (h, false)
          else
            (putFrameSet h { fs with inputs := upsertEntry c { data := d, confirmed := true } fs.inputs },
             !inputsEqual e.data d)

/-- The entry stored for (frame f, client c), if any. -/
def getEntry (h : InputHistory) (f c : Nat) : Option InputEntry :=
  (getFrameSet h f).bind (fun fs => lookupEntry c fs.inputs)

/-- Whether (f, c) holds any input. -/
def hasInput (h : InputHistory) (f c : Nat) : Bool :=
  (getEntry h f c).isSome

/-- Whether (f, c) holds a CONFIRMED input. -/
def isInputConfirmed (h : InputHistory) (f c : Nat) : Bool :=
  match getEntry h f c with
  | some e => e.confirmed
  | none => false

/-- clear_old (spec 4.5): drop all slots strictly older than the given
frame, advance oldestFrame monotonically, and raise the clear
boundary. -/
def clearOldFrames (h : InputHistory) (f : Nat) : InputHistory :=
  { h with
    buffer := h.buffer.map (fun s =>
      match s with
      | some fs => if fs.frame < f then none else some fs
      | none => none)
    oldestFrame := max h.oldestFrame f
    clearBoundary := max h.clearBoundary f }

/-- Oldest-frame probe; 0 on an empty history. -/
def getOldestFrame (h : InputHistory) : Nat :=
  h.oldestFrame

/-- Newest-frame probe; -1 on an empty history. -/
def getNewestFrame (h : InputHistory) : Int :=
  h.newestFrame

/-- get_predicted_input (spec 4.5): the stored entry if present, else
the strategy's prediction (idle — empty; repeat-last — last known or
empty). -/
def getPredictedInput (h : InputHistory) (f c : Nat) : InputData :=
  match getEntry h f c with
  | some e => e.data
  | none =>
      match h.strategy with
      | .idle => []
      | .repeatLast => (lookupData c h.lastKnownInputs).getD []

/-- Per-client loop of get_frame_inputs: stored entries are returned
as-is; missing clients get a prediction which is written back via
store_predicted. -/
def goFrameInputs (f : Nat) : InputHistory → List Nat → InputHistory × List (Nat × InputData)
  | h, [] => (h, [])
  | h, c :: rest =>
      match getEntry h f c with
      | some e =>
          let res := goFrameInputs f h rest
          (res.1, (c, e.data) :: res.2)
      | none =>
          let d := getPredictedInput h f c
          let res := goFrameInputs f (storePredictedInput h f c d) rest
          (res.1, (c, d) :: res.2)

/-- get_frame_inputs (spec 4.5): data for every active client at frame
f, filling and recording predictions for the missing ones. -/
def getFrameInputs (h : InputHistory) (f : Nat) : InputHistory × List (Nat × InputData) :=
  goFrameInputs f h h.activeClients

/-- reset (spec 4.5): clear all state and re-add the local client id
(if one was set) to the active set. -/
def InputHistory.reset (h : InputHistory) : InputHistory :=
  { InputHistory.new h.capacity with
    localClientId := h.localClientId
    hasLocalClient := h.hasLocalClient
    activeClients := if h.hasLocalClient then [h.localClientId] else []
    strategy := h.strategy }

/-- set_local_client (spec 4.5). -/
def setLocalClientId (h : InputHistory) (c : Nat) : InputHistory :=
  { h with localClientId := c
           hasLocalClient := true
           activeClients := if h.activeClients.contains c then h.activeClients else h.activeClients ++ [c] }

/-- add_client (spec 4.5). -/
def addClient (h : InputHistory) (c : Nat) : InputHistory :=
  { h with activeClients := if h.activeClients.contains c then h.activeClients else h.activeClients ++ [c] }

/-- One InputHistory operation, for reasoning about operation
sequences. -/
inductive HOp where
  | storeLocal (f c : Nat) (d : InputData)
  | storePredicted (f c : Nat) (d : InputData)
  | confirm (f c : Nat) (d : InputData)
  | clearOld (f : Nat)
deriving DecidableEq

/-- Apply one operation. -/
def applyOp (h : InputHistory) : HOp → InputHistory
  | .storeLocal f c d => storeLocalInput h f c d
  | .storePredicted f c d => storePredictedInput h f c d
  | .confirm f c d => (confirmInput h f c d).1
  | .clearOld f => clearOldFrames h f

/-- Apply a sequence of operations, oldest first. -/
def applyOps (ops : List HOp) (h : InputHistory) : InputHistory :=
  ops.foldl applyOp h

/-- The frame an operation addresses. -/
def opFrame : HOp → Nat
  | .storeLocal f _ _ => f
  | .storePredicted f _ _ => f
  | .confirm f _ _ => f
  | .clearOld f => f

/-- Whether an operation is one of the three store/confirm operations
(not a clear). -/
def opIsStoreOrConfirm : HOp → Bool
  | .clearOld _ => false
  | _ => true

/-- Whether (f, c) holds a CONFIRMED input. -/
def confirmedAt (h : InputHistory) (f c : Nat) : Bool :=
  isInputConfirmed h f c

/-- Whether (f, c) holds an input that is present but NOT confirmed. -/
def presentUnconfirmedAt (h : InputHistory) (f c : Nat) : Bool :=
  match getEntry h f c with
  | some e => !e.confirmed
  | none => false

/-!
Part III models the PredictionManager
(src/prediction/prediction-manager.ts).  The implementation file is not
in the source tree — only its unit tests
(tests/test-prediction-manager.ts and
src/prediction/prediction-manager.test.ts) — so the manager is modelled
from the spec, section 4.6.  The world (STORE) is abstract: a type W
with a tick function; a snapshot restores the world state bit-exact
(spec glossary), so a saved snapshot is modelled as the saved world
value.  Observable callbacks (tick calls, on_frame_resimulated,
lifecycle delivery, undo, snapshot load) are modelled as an emitted
event list.
-/

/-- One input as passed to STORE.tick: resolved client id and data. -/
structure TickInput where
  clientId : Nat
  data : InputData
deriving DecidableEq

/-- One input of a server tick envelope: sequence number, client id
string, and data. -/
structure ServerInput where
  seq : Nat
  clientId : String
  data : InputData
deriving DecidableEq

/-- Observable side effects of the prediction manager. -/
inductive PMEvent where
  | tickCall (frame : Nat) (inputs : List TickInput)
  | resimulated (frame : Nat)
  | loadSnapshot (frame : Nat)
  | lifecycle (si : ServerInput)
  | undoLifecycle (si : ServerInput)
deriving DecidableEq

/-- Failure kinds of the prediction manager (spec 4.6, failure
semantics). -/
inductive PMError where
  | missingResolver
  | snapshotMissing
deriving DecidableEq

/-- Modelled from the spec: the PredictionManager state
(src/prediction/prediction-manager.ts is not in the source tree; spec
4.6).  Owns the input history, a ring of per-frame snapshots, the
local and confirmed frame counters, the tunables, the recorded
lifecycle events and the rollback statistics. -/
structure PMState (W : Type) where
  enabled : Bool
  localFrame : Nat
  confirmedFrame : Nat
  maxPredictionFrames : Nat
  inputDelayFrames : Nat
  snapshotRingCap : Nat
  world : W
  snapshots : List (Nat × W)
  history : InputHistory
  lifecycleEvents : List (Nat × ServerInput)
  rollbackCount : Nat
  maxRollbackDepth : Nat
  framesResimulated : Nat
deriving DecidableEq

/-- Snapshot tagged with the given frame, if stored. -/
def lookupSnap {W : Type} (snaps : List (Nat × W)) (f : Nat) : Option W :=
  (snaps.find? (fun p => p.1 == f)).map (fun p => p.2)

/-- Whether a server input is a lifecycle event: its data carries a
type field equal to join or leave (spec 4.6 step 2). -/
def isLifecycleInput (si : ServerInput) : Bool :=
  match lookupVal ("type") si.data with
  | some (.vstr s) => s == ("join") || s == ("leave")
  | _ => false

/-- Resolve the client-id strings of game inputs; without a resolver
this is the programmer error of spec 4.6 (failure semantics). -/
def resolveAll (res : Option (String → Nat)) :
    List ServerInput → Except PMError (List (Nat × InputData))
  | [] => .ok []
  | si :: rest =>
      match res with
      | none => .error .missingResolver
      | some r =>
          match resolveAll res rest with
          | .error e => .error e
          | .ok l => .ok ((r si.clientId, si.data) :: l)

/-- Confirm each resolved game input against the history; true when any
confirmation reports a misprediction. -/
def confirmAll (frame : Nat) : InputHistory → List (Nat × InputData) → InputHistory × Bool
  | h, [] => (h, false)
  | h, (c, d) :: rest =>
      let r1 := confirmInput h frame c d
      let r2 := confirmAll frame r1.1 rest
      (r2.1, r1.2 || r2.2)

/-- advance_frame (spec 4.6): do nothing when disabled or when the
prediction depth has reached max_prediction_frames; otherwise save a
snapshot of the pre-tick world, advance the local frame, collect
inputs (recording predictions) and tick the world once.  The snapshot
is keyed by the frame about to be simulated, so that a rollback to
frame f can restore the state from before frame f ran; the
repository's tests pin this keying: prediction-manager.test.ts, test
"lifecycle events at past frame trigger rollback", rolls back to frame
1 after a single advance and expects resimulation ticks. -/
def advanceFrame {W : Type} (tickFn : W → Nat → List TickInput → W)
    (pm : PMState W) : PMState W × List PMEvent :=
  if pm.enabled = false ∨ (pm.maxPredictionFrames : Int) ≤ (pm.localFrame : Int) - (pm.confirmedFrame : Int) then
    (pm, [])
  else
    let snaps := ((pm.localFrame + 1, pm.world) :: pm.snapshots).take pm.snapshotRingCap
    let f := pm.localFrame + 1
    let hi := getFrameInputs pm.history f
    let tins := hi.2.map (fun p => { clientId := p.1, data := p.2 : TickInput })
    ({ pm with snapshots := snaps
               localFrame := f
               history := hi.1
               world := tickFn pm.world f tins },
     [PMEvent.tickCall f tins])

/-- Resimulation loop of execute_rollback (spec 4.6 step 3): for n
frames starting at f, replay the frame's recorded lifecycle events,
collect inputs from the history, tick the world, and emit
on_frame_resimulated. -/
def resimFrames {W : Type} (tickFn : W → Nat → List TickInput → W) :
    PMState W → Nat → Nat → PMState W × List PMEvent
  | pm, _, 0 => (pm, [])
  | pm, f, n + 1 =>
      let replays := ((pm.lifecycleEvents.filter (fun p => p.1 = f)).map (fun p => PMEvent.lifecycle p.2))
      let hi := getFrameInputs pm.history f
      let tins := hi.2.map (fun p => { clientId := p.1, data := p.2 : TickInput })
      let pm1 := { pm with history := hi.1, world := tickFn pm.world f tins }
      let rest := resimFrames tickFn pm1 (f + 1) n
      (rest.1, replays ++ PMEvent.tickCall f tins :: PMEvent.resimulated f :: rest.2)

/-- execute_rollback (spec 4.6): undo the lifecycle events of the
frames being rolled back in reverse order, restore the snapshot tagged
to_frame (the state from before frame to_frame ran), resimulate frames
to_frame .. local_frame in ascending order, and update the rollback
statistics with depth local_frame - to_frame.  The repository's tests
pin the resimulation range: prediction-manager.test.ts expects
on_frame_resimulated to fire for each of the frames 1, 2 and 3 when
rolling back from local frame 3 to frame 1, while the stats tests of
tests/test-prediction-manager.ts expect framesResimulated = 2 for that
shape.  A missing snapshot is the unrecoverable case of the failure
semantics. -/
def executeRollback {W : Type} (tickFn : W → Nat → List TickInput → W)
    (pm : PMState W) (toFrame : Nat) : Except PMError (PMState W × List PMEvent) :=
  match lookupSnap pm.snapshots toFrame with
  | none => .error .snapshotMissing
  | some snap =>
      let undo := ((pm.lifecycleEvents.filter
          (fun p => toFrame < p.1 ∧ p.1 ≤ pm.localFrame)).reverse).map
          (fun p => PMEvent.undoLifecycle p.2)
      let depth := pm.localFrame - toFrame
      let res := resimFrames tickFn { pm with world := snap } toFrame (pm.localFrame + 1 - toFrame)
      .ok ({ res.1 with rollbackCount := res.1.rollbackCount + 1
                        maxRollbackDepth := max res.1.maxRollbackDepth depth
                        framesResimulated := res.1.framesResimulated + depth },
           undo ++ PMEvent.loadSnapshot toFrame :: res.2)

/-- receive_server_tick (spec 4.6): when disabled return false; split
the inputs into lifecycle events and game inputs, resolving the game
inputs' client ids (programmer error without a resolver); for a frame
ahead of the local frame deliver lifecycle events out of band and
record them without rollback; otherwise confirm the game inputs,
record the lifecycle events, advance the confirmed frame, and roll
back when anything mispredicted or any lifecycle event arrived at an
already-simulated frame. -/
def receiveServerTick {W : Type} (tickFn : W → Nat → List TickInput → W)
    (res : Option (String → Nat)) (pm : PMState W) (frame : Nat)
    (inputs : List ServerInput) : Except PMError (PMState W × List PMEvent × Bool) :=
  if pm.enabled = false then .ok (pm, [], false)
  else
    let lifecycle := inputs.filter isLifecycleInput
    let game := inputs.filter (fun si => !isLifecycleInput si)
    match resolveAll res game with
    | .error e => .error e
    | .ok resolved =>
        if pm.localFrame < frame then
          .ok ({ pm with lifecycleEvents := pm.lifecycleEvents ++ lifecycle.map (fun si => (frame, si)) },
               lifecycle.map PMEvent.lifecycle, false)
        else
          let ca := confirmAll frame pm.history resolved
          let needsRollback := ca.2 || !lifecycle.isEmpty
          let pm1 := { pm with history := ca.1
                               lifecycleEvents := pm.lifecycleEvents ++ lifecycle.map (fun si => (frame, si))
                               confirmedFrame := max pm.confirmedFrame frame }
          if needsRollback then
            match executeRollback tickFn pm1 frame with
            | .error e => .error e
            | .ok (pm2, log) => .ok (pm2, log, true)
          else
            .ok (pm1, [], false)

/-- Frame of a tick-call event, if it is one. -/
def evTickFrame : PMEvent → Option Nat
  | .tickCall f _ => some f
  | _ => none

/-- Frame of an on_frame_resimulated event, if it is one. -/
def evResimFrame : PMEvent → Option Nat
  | .resimulated f => some f
  | _ => none

/-- Frame of a snapshot-load or tick-call event, if it is one; their
subsequence shows the restore-then-resimulate order. -/
def evLoadOrTickFrame : PMEvent → Option Nat
  | .loadSnapshot f => some f
  | .tickCall f _ => some f
  | _ => none

/-!
Concrete fixtures used by witnesses and counterexamples.  The entity
types and components mirror the cell-eater example game
(src/entities.ts: a cell with Transform2D and Player, plus a syncNone
client-local type).
-/

/-- Example registry: two components in registration order. -/
def regEx : List Component :=
  [{ name := ("Transform2D"), fieldNames := [("x"), ("y")] },
   { name := ("Player"), fieldNames := [("clientId")] }]

/-- Empty snapshot at the given frame. -/
def snapEmptyAt (f : Nat) : SparseSnapshot :=
  { frame := f, seq := 0, postTick := false, entityCount := 0, entityMeta := [],
    componentData := [(("Transform2D"), [[], []]), (("Player"), [[]])],
    stringTables := [], rngState := (1, 2), allocNext := 0, allocFree := [], allocGen := [] }

/-- A snapshot with two entities and concrete field values. -/
def snapTwoEnts (seq : Nat) (rng : Nat × Nat) (postTick : Bool) : SparseSnapshot :=
  { frame := 7, seq := seq, postTick := postTick, entityCount := 2,
    entityMeta := [{ eid := 3, etype := ("cell"), clientId := some 1 },
                   { eid := 5, etype := ("cell"), clientId := some 2 }],
    componentData := [(("Transform2D"), [[10, 20], [30, 40]]), (("Player"), [[1, 2]])],
    stringTables := [], rngState := rng, allocNext := 6, allocFree := [], allocGen := [] }

/-- Example world with one syncNone entity among two synced ones. -/
def wEx : SDWorld :=
  { frame := 7, seq := 0,
    entities :=
      [{ eid := 5, etype := ("cell"), syncNone := false, clientId := some 2, values := [[11, 12], [2]] },
       { eid := 4, etype := ("localFx"), syncNone := true, clientId := none, values := [[90, 91], [0]] },
       { eid := 3, etype := ("cell"), syncNone := false, clientId := some 1, values := [[10, 20], [1]] }],
    rngState := (1, 2) }

/-- The syncNone entity of the example world. -/
def eEx : WEntity :=
  { eid := 4, etype := ("localFx"), syncNone := true, clientId := none, values := [[90, 91], [0]] }

/-- Example input payloads. -/
def dA : InputData := [(("moveX"), .num 100)]

/-- A second example payload. -/
def dB : InputData := [(("moveX"), .num 5)]

/-- A third example payload. -/
def dC : InputData := [(("moveX"), .num 2)]

/-- History with capacity 4 holding a CONFIRMED input at (1, 7). -/
def cexH0 : InputHistory := storeLocalInput (InputHistory.new 4) 1 7 dA

/-- Operation sequence that evicts frame 1 through the ring (frame 5
maps to the same slot at capacity 4) and then re-creates it with a
predicted write. -/
def cexOps : List HOp := [HOp.storeLocal 5 7 dB, HOp.storePredicted 1 7 dC]

/-- History with capacity 8 holding a CONFIRMED input at (1, 7). -/
def witH0 : InputHistory := storeLocalInput (InputHistory.new 8) 1 7 dA

/-- Eviction-free operation sequence touching the slot's frame and
other frames. -/
def witOps : List HOp :=
  [HOp.storeLocal 2 7 dB, HOp.confirm 1 7 dB, HOp.storePredicted 1 9 dC, HOp.storePredicted 1 7 dC]

/-- Example world-tick function over an abstract world of type Nat:
each tick folds the frame number in, so distinct tick sequences give
distinct worlds. -/
def tfEx : Nat → Nat → List TickInput → Nat := fun w f _ => w * 100 + f

/-- Enabled prediction manager at frame 0 with two active clients. -/
def pmEx0 : PMState Nat :=
  { enabled := true, localFrame := 0, confirmedFrame := 0, maxPredictionFrames := 3,
    inputDelayFrames := 0, snapshotRingCap := 32, world := 1, snapshots := [],
    history := addClient (setLocalClientId (InputHistory.new 16) 1) 2,
    lifecycleEvents := [], rollbackCount := 0, maxRollbackDepth := 0, framesResimulated := 0 }

/-- One advance step at the example tick function. -/
def pmStep (pm : PMState Nat) : PMState Nat := (advanceFrame tfEx pm).1

/-- The example manager advanced three frames. -/
def pmEx3 : PMState Nat := pmStep (pmStep (pmStep pmEx0))

/-- A disabled prediction manager. -/
def pmDis : PMState Nat := { pmEx0 with enabled := false }

/-- A join lifecycle input. -/
def siJoin : ServerInput := { seq := 1, clientId := ("5"), data := [(("type"), .vstr ("join"))] }

/-- A non-lifecycle game input. -/
def siGame : ServerInput := { seq := 2, clientId := ("2"), data := [(("moveX"), .num 999)] }

/-- Example client-id resolver: string length stands in for parseInt. -/
def resEx : String → Nat := fun s => s.length

/-!
Theorems.  General lemmas come first, then one theorem per claim with
its witness or counterexample.
-/

theorem mod32_mod32 (v : Nat) : v % M32 % M32 = v % M32 := by
  simp only [M32]
  omega

theorem xxhash32Combine_mod (h v : Nat) :
    xxhash32Combine h (v % M32) = xxhash32Combine h v := by
  simp only [xxhash32Combine, mod32_mod32]

theorem hashFieldCols_eq_foldl :
    ∀ (fns : List String) (cols : List (List Nat)) (i h : Nat),
    hashFieldCols fns cols i h = (specFieldVals fns cols i).foldl xxhash32Combine h := by
  intro fns
  induction fns with
  | nil => intro cols i h; rfl
  | cons f fns ih =>
      intro cols i h
      simp only [hashFieldCols, specFieldVals, List.foldl_cons, ih, xxhash32Combine_mod]

theorem hashEntityComponents_eq_foldl (reg : List Component) :
    ∀ (cd : List (String × List (List Nat))) (i h : Nat),
    hashEntityComponents reg cd i h = (specEntityVals reg cd i).foldl xxhash32Combine h := by
  intro cd
  induction cd with
  | nil => intro i h; rfl
  | cons p rest ih =>
      intro i h
      have hstep : hashEntityComponents reg (p :: rest) i h
          = hashEntityComponents reg rest i
              (match reg.find? (fun c => c.name == p.1) with
               | none => h
               | some comp => hashFieldCols comp.fieldNames p.2 i h) := rfl
      rw [hstep]
      cases hf : reg.find? (fun c => c.name == p.1) with
      | none =>
          rw [ih]
          simp [specEntityVals, hf]
      | some comp =>
          rw [ih]
          simp [specEntityVals, hf, hashFieldCols_eq_foldl, List.foldl_append]

theorem hashEntities_eq_foldl (reg : List Component) (cd : List (String × List (List Nat))) :
    ∀ (metas : List EntityMeta) (i h : Nat),
    hashEntities reg cd metas i h = (specEntitySeq reg cd metas i).foldl xxhash32Combine h := by
  intro metas
  induction metas with
  | nil => intro i h; rfl
  | cons m rest ih =>
      intro i h
      simp only [hashEntities, specEntitySeq, List.foldl_cons, List.foldl_append]
      rw [ih, hashEntityComponents_eq_foldl]

theorem mem_insertByEid (a x : WEntity) :
    ∀ (l : List WEntity), a ∈ insertByEid x l ↔ a = x ∨ a ∈ l := by
  intro l
  induction l with
  | nil => simp [insertByEid]
  | cons y ys ih =>
      by_cases hle : x.eid ≤ y.eid
      · simp [insertByEid, hle]
      · simp only [insertByEid, if_neg hle, List.mem_cons, ih]
        tauto

theorem mem_sortByEid (a : WEntity) :
    ∀ (l : List WEntity), a ∈ sortByEid l ↔ a ∈ l := by
  intro l
  induction l with
  | nil => simp [sortByEid]
  | cons x xs ih => simp [sortByEid, mem_insertByEid, ih]

/-- C2: the state hash is computed by folding, in this exact order,
frame, entity count, then for each entity in snapshot (ascending-id)
order its id followed by the raw stored value of every component in
registration order and every field in declared order; and entities of
syncNone types never appear in the sparse snapshot, so they contribute
nothing to the hash. -/
theorem claim2_hash_order_and_syncNone_exclusion :
    (∀ (reg : List Component) (s : SparseSnapshot),
        computeSnapshotHash reg s = (specHashSequence reg s).foldl xxhash32Combine 0)
    ∧ (∀ (reg : List Component) (w : SDWorld) (pt : Bool) (e : WEntity),
        (w.entities.map WEntity.eid).Nodup → e ∈ w.entities → e.syncNone = true →
        e.eid ∉ (getSparseSnapshot reg w pt).entityMeta.map EntityMeta.eid) := by
  constructor
  · intro reg s
    simp only [computeSnapshotHash, specHashSequence, List.foldl_cons]
    rw [hashEntities_eq_foldl]
  · intro reg w pt e hnd hmem hsync hcontra
    simp only [getSparseSnapshot, List.map_map] at hcontra
    rw [List.mem_map] at hcontra
    obtain ⟨e', he'mem, he'eid⟩ := hcontra
    rw [mem_sortByEid, List.mem_filter] at he'mem
    obtain ⟨he'w, he'live⟩ := he'mem
    have : e' = e := List.inj_on_of_nodup_map hnd he'w hmem he'eid
    subst this
    simp [hsync] at he'live

/-- C2 witness: the hash of a concrete two-entity snapshot equals the
fold of its spec sequence, and the syncNone entity of the example
world is absent from its sparse snapshot. -/
theorem claim2_witness :
    (computeSnapshotHash regEx (snapTwoEnts 0 (1, 2) false)
      = (specHashSequence regEx (snapTwoEnts 0 (1, 2) false)).foldl xxhash32Combine 0)
    ∧ ((wEx.entities.map WEntity.eid).Nodup ∧ eEx ∈ wEx.entities ∧ eEx.syncNone = true)
    ∧ eEx.eid ∉ (getSparseSnapshot regEx wEx false).entityMeta.map EntityMeta.eid :=
  ⟨claim2_hash_order_and_syncNone_exclusion.1 regEx (snapTwoEnts 0 (1, 2) false),
   ⟨by decide, by decide, by decide⟩,
   claim2_hash_order_and_syncNone_exclusion.2 regEx wEx false eEx
     (by decide) (by decide) (by decide)⟩

/-- C1 (amended): the state hash depends only on the frame, the entity
count, the entity list and the stored field values; any two snapshots
agreeing on those four hash equal regardless of sequence number,
postTick flag, string tables, RNG state or allocator state. -/
theorem claim1_hash_determined_by_frame_and_entities (reg : List Component)
    (s1 s2 : SparseSnapshot) (hf : s1.frame = s2.frame)
    (hc : s1.entityCount = s2.entityCount) (hm : s1.entityMeta = s2.entityMeta)
    (hd : s1.componentData = s2.componentData) :
    computeSnapshotHash reg s1 = computeSnapshotHash reg s2 := by
  simp only [computeSnapshotHash, hf, hc, hm, hd]

/-- C1 witness: two concrete snapshots with identical entities and
frame but different sequence numbers, RNG state and postTick flag hash
equal. -/
theorem claim1_witness :
    (snapTwoEnts 0 (1, 2) false).seq ≠ (snapTwoEnts 99 (7, 8) true).seq
    ∧ computeSnapshotHash regEx (snapTwoEnts 0 (1, 2) false)
        = computeSnapshotHash regEx (snapTwoEnts 99 (7, 8) true) :=
  ⟨by decide,
   claim1_hash_determined_by_frame_and_entities regEx _ _ rfl rfl rfl rfl⟩

/-- C1 counterexample: two snapshots with identical (empty) entity sets
and identical field values but different frames hash differently — the
state hash also depends on the frame, refuting the claim that it
depends on nothing but the entity set and field values. -/
theorem claim1_counterexample_frame_changes_hash :
    (snapEmptyAt 0).entityMeta = (snapEmptyAt 1).entityMeta
    ∧ (snapEmptyAt 0).componentData = (snapEmptyAt 1).componentData
    ∧ computeSnapshotHash regEx (snapEmptyAt 0) ≠ computeSnapshotHash regEx (snapEmptyAt 1) := by
  refine ⟨rfl, rfl, ?_⟩
  decide

theorem getD_some_lt {α : Type} {l : List (Option α)} {i : Nat} {a : α}
    (hd : l.getD i none = some a) : i < l.length := by
  by_contra hcon
  push_neg at hcon
  rw [List.getD_eq_getElem?_getD, List.getElem?_eq_none (by omega)] at hd
  simp at hd

theorem getD_set_self {α : Type} (l : List α) (i : Nat) (a d : α) (hlt : i < l.length) :
    (l.set i a).getD i d = a := by
  rw [List.getD_eq_getElem?_getD, List.getElem?_set_self hlt]
  rfl

theorem getD_set_other {α : Type} (l : List α) (i j : Nat) (a d : α) (hne : i ≠ j) :
    (l.set i a).getD j d = l.getD j d := by
  rw [List.getD_eq_getElem?_getD, List.getElem?_set_ne hne, List.getD_eq_getElem?_getD]

theorem getD_replicate_none {α : Type} (n i : Nat) :
    (List.replicate n (none : Option α)).getD i none = none := by
  rw [List.getD_eq_getElem?_getD, List.getElem?_replicate]
  split <;> rfl

theorem getFrameSet_frame_eq {h : InputHistory} {f : Nat} {fs : FrameSet}
    (hfs : getFrameSet h f = some fs) : fs.frame = f := by
  unfold getFrameSet at hfs
  split at hfs
  · split at hfs
    · cases hfs
      assumption
    · cases hfs
  · cases hfs

theorem getFrameSet_idx_lt {h : InputHistory} {f : Nat} {fs : FrameSet}
    (hfs : getFrameSet h f = some fs) : f % h.capacity < h.buffer.length := by
  unfold getFrameSet at hfs
  split at hfs
  case h_1 fs0 hb => exact getD_some_lt hb
  case h_2 => cases hfs

theorem getFrameSet_put_self {h : InputHistory} {f : Nat} {fs : FrameSet}
    (hfs : getFrameSet h f = some fs) (fs' : FrameSet) (hfr : fs'.frame = f) :
    getFrameSet (putFrameSet h fs') f = some fs' := by
  have hlt := getFrameSet_idx_lt hfs
  unfold getFrameSet putFrameSet
  simp only [hfr]
  rw [List.getD_eq_getElem?_getD, List.getElem?_set_self hlt]
  simp [hfr]

theorem lookupEntry_upsert_self (c : Nat) (e : InputEntry) :
    ∀ (l : List (Nat × InputEntry)), lookupEntry c (upsertEntry c e l) = some e := by
  intro l
  induction l with
  | nil => simp [upsertEntry, lookupEntry]
  | cons p rest ih =>
      by_cases hc : p.1 = c
      · simp [upsertEntry, hc, lookupEntry]
      · simp [upsertEntry, hc, lookupEntry, ih]

theorem lookupEntry_upsert_other (c c' : Nat) (e : InputEntry) (hne : c' ≠ c) :
    ∀ (l : List (Nat × InputEntry)), lookupEntry c (upsertEntry c' e l) = lookupEntry c l := by
  intro l
  induction l with
  | nil => simp [upsertEntry, lookupEntry, hne]
  | cons p rest ih =>
      by_cases hc : p.1 = c'
      · simp [upsertEntry, hc, lookupEntry, hne, ih]
      · by_cases hc2 : p.1 = c
        · simp [upsertEntry, hc, lookupEntry, hc2, Ne.symm hne]
        · simp [upsertEntry, hc, lookupEntry, hc2, ih]

theorem getEntry_put_upsert_self {h : InputHistory} {f : Nat} {fs : FrameSet}
    (hfs : getFrameSet h f = some fs) (c : Nat) (e : InputEntry) :
    getEntry (putFrameSet h { fs with inputs := upsertEntry c e fs.inputs }) f c = some e := by
  unfold getEntry
  rw [getFrameSet_put_self hfs ({ fs with inputs := upsertEntry c e fs.inputs })
    (by show fs.frame = f; exact getFrameSet_frame_eq hfs)]
  simp [lookupEntry_upsert_self]

theorem getEntry_put_upsert_other {h : InputHistory} {f : Nat} {fs : FrameSet}
    (hfs : getFrameSet h f = some fs) (c c' : Nat) (e : InputEntry) (hne : c' ≠ c) :
    getEntry (putFrameSet h { fs with inputs := upsertEntry c' e fs.inputs }) f c
      = lookupEntry c fs.inputs := by
  unfold getEntry
  rw [getFrameSet_put_self hfs ({ fs with inputs := upsertEntry c' e fs.inputs })
    (by show fs.frame = f; exact getFrameSet_frame_eq hfs)]
  simp [lookupEntry_upsert_other _ _ _ hne]

/-- C3: confirmInput returns false when no prior entry exists for the
slot and false when the prior entry is already CONFIRMED; otherwise it
marks the slot CONFIRMED with the new data and returns true exactly
when the new data differs from the stored prediction under shallow
equality (inputsEqual). -/
theorem claim3_confirmInput_semantics (h : InputHistory) (f c : Nat) (d : InputData) :
    (confirmInput h f c d).2
      = (match getEntry h f c with
         | none => false
         | some e => if e.confirmed then false else !inputsEqual e.data d)
    ∧ getEntry (confirmInput h f c d).1 f c
      = (match getEntry h f c with
         | none => none
         | some e => if e.confirmed then some e else some { data := d, confirmed := true }) := by
  cases hfs : getFrameSet h f with
  | none => simp [confirmInput, getEntry, hfs]
  | some fs =>
      cases hle : lookupEntry c fs.inputs with
      | none => simp [confirmInput, getEntry, hfs, hle]
      | some e =>
          by_cases hc : e.confirmed
          · simp [confirmInput, getEntry, hfs, hle, hc]
          · constructor
            · simp [confirmInput, getEntry, hfs, hle, hc]
            · have hw := getEntry_put_upsert_self hfs c { data := d, confirmed := true }
              simp only [confirmInput, getEntry, hfs, hle, hc]
              simp only [getEntry] at hw
              simp [hfs, hle, hc, hw]

theorem getFrameSet_new (cap f : Nat) : getFrameSet (InputHistory.new cap) f = none := by
  unfold getFrameSet InputHistory.new
  simp [getD_replicate_none]

theorem getFrameSet_reset (h : InputHistory) (f : Nat) :
    getFrameSet (InputHistory.reset h) f = none := by
  unfold getFrameSet InputHistory.reset InputHistory.new
  simp [getD_replicate_none]

theorem oldest_newest_after_first_store (h : InputHistory) (f : Nat)
    (hfs : getFrameSet h f = none) (hb : h.clearBoundary = 0) (hn : h.newestFrame = -1) :
    (getOrCreateFrameSet h f).1.oldestFrame = f
    ∧ (getOrCreateFrameSet h f).1.newestFrame = (f : Int) := by
  unfold getOrCreateFrameSet
  rw [hfs]
  constructor
  · simp [hb, hn]
  · simp [hn]
    omega

/-- C10: on an empty InputHistory (fresh or reset) the boundary probes
use different sentinels — getNewestFrame is -1 while getOldestFrame is
0 — and after the first input is stored at frame f (locally or as a
prediction) both probes report f. -/
theorem claim10_empty_sentinels_and_first_store (cap f c : Nat) (d : InputData) (h : InputHistory) :
    getNewestFrame (InputHistory.new cap) = -1
    ∧ getOldestFrame (InputHistory.new cap) = 0
    ∧ getNewestFrame (InputHistory.reset h) = -1
    ∧ getOldestFrame (InputHistory.reset h) = 0
    ∧ getOldestFrame (storeLocalInput (InputHistory.new cap) f c d) = f
    ∧ getNewestFrame (storeLocalInput (InputHistory.new cap) f c d) = (f : Int)
    ∧ getOldestFrame (storePredictedInput (InputHistory.new cap) f c d) = f
    ∧ getNewestFrame (storePredictedInput (InputHistory.new cap) f c d) = (f : Int)
    ∧ getOldestFrame (storeLocalInput (InputHistory.reset h) f c d) = f
    ∧ getNewestFrame (storeLocalInput (InputHistory.reset h) f c d) = (f : Int) := by
  have hnew := oldest_newest_after_first_store (InputHistory.new cap) f
    (getFrameSet_new cap f) rfl rfl
  have hres := oldest_newest_after_first_store (InputHistory.reset h) f
    (getFrameSet_reset h f) rfl rfl
  have hcre : ((getOrCreateFrameSet (InputHistory.new cap) f).2).inputs = [] := by
    unfold getOrCreateFrameSet
    rw [getFrameSet_new cap f]
  refine ⟨rfl, rfl, rfl, rfl, ?_, ?_, ?_, ?_, ?_, ?_⟩
  · simp [storeLocalInput, getOldestFrame, putFrameSet, hnew.1]
  · simp [storeLocalInput, getNewestFrame, putFrameSet, hnew.2]
  · simp [storePredictedInput, hcre, lookupEntry, getOldestFrame, putFrameSet, hnew.1]
  · simp [storePredictedInput, hcre, lookupEntry, getNewestFrame, putFrameSet, hnew.2]
  · simp [storeLocalInput, getOldestFrame, putFrameSet, hres.1]
  · simp [storeLocalInput, getNewestFrame, putFrameSet, hres.2]

theorem getD_map_none {α β : Type} (g : Option α → Option β) (hg : g none = none)
    (l : List (Option α)) (i : Nat) : (l.map g).getD i none = g (l.getD i none) := by
  rw [List.getD_eq_getElem?_getD, List.getElem?_map, List.getD_eq_getElem?_getD]
  cases l[i]? with
  | none => simp [hg]
  | some x => simp

theorem getFrameSet_clearOldFrames (h : InputHistory) (K f : Nat) :
    getFrameSet (clearOldFrames h K) f = (if f < K then none else getFrameSet h f) := by
  unfold getFrameSet clearOldFrames
  rw [getD_map_none _ rfl]
  cases hb : h.buffer.getD (f % h.capacity) none with
  | none => simp
  | some fs0 =>
      by_cases hfr : fs0.frame = f
      · subst hfr
        by_cases hlt : fs0.frame < K
        · simp [hlt]
        · simp [hlt]
      · by_cases hlt : fs0.frame < K
        · simp [hlt, hfr]
        · simp [hlt, hfr]

theorem getOrCreate_oldest_boundary (h : InputHistory) (f K : Nat)
    (h1 : K ≤ h.oldestFrame) (h2 : K ≤ h.clearBoundary) :
    K ≤ (getOrCreateFrameSet h f).1.oldestFrame
    ∧ K ≤ (getOrCreateFrameSet h f).1.clearBoundary := by
  unfold getOrCreateFrameSet
  cases hfs : getFrameSet h f with
  | some fs => exact ⟨h1, h2⟩
  | none =>
      refine ⟨?_, h2⟩
      by_cases hb : f < h.clearBoundary
      · simpa [hb] using h1
      · by_cases hn : h.newestFrame = -1
        · simp [hb, hn]
          omega
        · simp [hb, hn]
          omega

theorem confirmInput_oldestFrame (h : InputHistory) (f c : Nat) (d : InputData) :
    (confirmInput h f c d).1.oldestFrame = h.oldestFrame := by
  unfold confirmInput
  split
  · rfl
  · split
    · rfl
    · split
      · rfl
      · simp [putFrameSet]

theorem confirmInput_clearBoundary (h : InputHistory) (f c : Nat) (d : InputData) :
    (confirmInput h f c d).1.clearBoundary = h.clearBoundary := by
  unfold confirmInput
  split
  · rfl
  · split
    · rfl
    · split
      · rfl
      · simp [putFrameSet]

theorem applyOp_oldest_boundary (h : InputHistory) (op : HOp) (K : Nat)
    (h1 : K ≤ h.oldestFrame) (h2 : K ≤ h.clearBoundary) :
    K ≤ (applyOp h op).oldestFrame ∧ K ≤ (applyOp h op).clearBoundary := by
  cases op with
  | storeLocal f c d =>
      have := getOrCreate_oldest_boundary h f K h1 h2
      simp only [applyOp, storeLocalInput, putFrameSet]
      exact this
  | storePredicted f c d =>
      have hoc := getOrCreate_oldest_boundary h f K h1 h2
      simp only [applyOp, storePredictedInput]
      cases hle : lookupEntry c (getOrCreateFrameSet h f).2.inputs with
      | none => simpa [putFrameSet] using hoc
      | some e =>
          by_cases hc : e.confirmed
          · simpa [hc] using hoc
          · simpa [hc, putFrameSet] using hoc
  | confirm f c d =>
      simp only [applyOp]
      rw [confirmInput_oldestFrame, confirmInput_clearBoundary]
      exact ⟨h1, h2⟩
  | clearOld f =>
      simp only [applyOp, clearOldFrames]
      constructor
      · exact le_trans h1 (le_max_left _ _)
      · exact le_trans h2 (le_max_left _ _)

theorem applyOps_oldest_boundary (K : Nat) :
    ∀ (ops : List HOp) (h : InputHistory), K ≤ h.oldestFrame → K ≤ h.clearBoundary →
    K ≤ (applyOps ops h).oldestFrame ∧ K ≤ (applyOps ops h).clearBoundary := by
  intro ops
  induction ops with
  | nil => intro h h1 h2; exact ⟨h1, h2⟩
  | cons op rest ih =>
      intro h h1 h2
      have hstep := applyOp_oldest_boundary h op K h1 h2
      simpa [applyOps, List.foldl_cons] using ih (applyOp h op) hstep.1 hstep.2

/-- C8: clearOldFrames removes exactly the slots whose frame is
strictly older than the given frame, advances oldestFrame
monotonically, and after clearOldFrames at K no sequence of further
operations — stores below K included, and further clears — ever brings
oldestFrame back below K. -/
theorem claim8_clearOldFrames_no_regression (h : InputHistory) (K f c : Nat) (ops : List HOp) :
    getEntry (clearOldFrames h K) f c = (if f < K then none else getEntry h f c)
    ∧ h.oldestFrame ≤ (clearOldFrames h K).oldestFrame
    ∧ K ≤ (applyOps ops (clearOldFrames h K)).oldestFrame := by
  refine ⟨?_, ?_, ?_⟩
  · unfold getEntry
    rw [getFrameSet_clearOldFrames]
    by_cases hlt : f < K
    · simp [hlt]
    · simp [hlt]
  · simp [clearOldFrames]
  · refine (applyOps_oldest_boundary K ops (clearOldFrames h K) ?_ ?_).1
    · simp [clearOldFrames]
    · simp [clearOldFrames]

theorem getFrameSet_eq_of {h h' : InputHistory} (f : Nat) (hcap : h'.capacity = h.capacity)
    (hbuf : h'.buffer.getD (f % h.capacity) none = h.buffer.getD (f % h.capacity) none) :
    getFrameSet h' f = getFrameSet h f := by
  unfold getFrameSet
  rw [hcap, hbuf]

theorem getOrCreate_capacity (h : InputHistory) (f : Nat) :
    (getOrCreateFrameSet h f).1.capacity = h.capacity := by
  unfold getOrCreateFrameSet
  split
  · rfl
  · rfl

theorem getOrCreate_buffer_other (h : InputHistory) (f' i : Nat) (hne : f' % h.capacity ≠ i) :
    (getOrCreateFrameSet h f').1.buffer.getD i none = h.buffer.getD i none := by
  unfold getOrCreateFrameSet
  split
  · rfl
  · exact getD_set_other _ _ _ _ _ hne

theorem getOrCreate_snd_frame (h : InputHistory) (f : Nat) :
    (getOrCreateFrameSet h f).2.frame = f := by
  unfold getOrCreateFrameSet
  split
  next fs hfs => exact getFrameSet_frame_eq hfs
  next => rfl

theorem getFrameSet_storeLocal_other (h : InputHistory) (f' c' : Nat) (d : InputData) (f : Nat)
    (hne : f' % h.capacity ≠ f % h.capacity) :
    getFrameSet (storeLocalInput h f' c' d) f = getFrameSet h f := by
  have hcap := getOrCreate_capacity h f'
  have hfr := getOrCreate_snd_frame h f'
  apply getFrameSet_eq_of
  · exact hcap
  · show ((getOrCreateFrameSet h f').1.buffer.set
        ((getOrCreateFrameSet h f').2.frame % (getOrCreateFrameSet h f').1.capacity) _).getD
        (f % h.capacity) none = _
    rw [hfr, hcap]
    rw [getD_set_other _ _ _ _ _ hne]
    exact getOrCreate_buffer_other h f' _ hne

theorem getFrameSet_storePredicted_other (h : InputHistory) (f' c' : Nat) (d : InputData) (f : Nat)
    (hne : f' % h.capacity ≠ f % h.capacity) :
    getFrameSet (storePredictedInput h f' c' d) f = getFrameSet h f := by
  have hcap := getOrCreate_capacity h f'
  have hfr := getOrCreate_snd_frame h f'
  have hbuf := getOrCreate_buffer_other h f' _ hne
  unfold storePredictedInput
  cases hle : lookupEntry c' (getOrCreateFrameSet h f').2.inputs with
  | some e =>
      by_cases hc : e.confirmed
      · simp only [hle, hc, if_pos]
        exact getFrameSet_eq_of f hcap hbuf
      · simp only [hle, hc, if_neg]
        apply getFrameSet_eq_of
        · exact hcap
        · show ((getOrCreateFrameSet h f').1.buffer.set
              ((getOrCreateFrameSet h f').2.frame % (getOrCreateFrameSet h f').1.capacity) _).getD
              (f % h.capacity) none = _
          rw [hfr, hcap, getD_set_other _ _ _ _ _ hne]
          exact hbuf
  | none =>
      simp only [hle]
      apply getFrameSet_eq_of
      · exact hcap
      · show ((getOrCreateFrameSet h f').1.buffer.set
            ((getOrCreateFrameSet h f').2.frame % (getOrCreateFrameSet h f').1.capacity) _).getD
            (f % h.capacity) none = _
        rw [hfr, hcap, getD_set_other _ _ _ _ _ hne]
        exact hbuf

theorem getFrameSet_confirm_other (h : InputHistory) (f' c' : Nat) (d : InputData) (f : Nat)
    (hne : f' % h.capacity ≠ f % h.capacity) :
    getFrameSet (confirmInput h f' c' d).1 f = getFrameSet h f := by
  unfold confirmInput
  cases hfs : getFrameSet h f' with
  | none => rfl
  | some fs =>
      have hfr := getFrameSet_frame_eq hfs
      cases hle : lookupEntry c' fs.inputs with
      | none => simp only [hfs, hle]
      | some e =>
          by_cases hc : e.confirmed
          · simp only [hfs, hle, hc, if_pos]
          · simp only [hfs, hle, hc, if_neg]
            apply getFrameSet_eq_of
            · rfl
            · show (h.buffer.set (fs.frame % h.capacity) _).getD (f % h.capacity) none = _
              rw [hfr]
              exact getD_set_other _ _ _ _ _ hne

theorem getEntry_set_lastKnown (h : InputHistory) (x : List (Nat × InputData)) (f c : Nat) :
    getEntry { h with lastKnownInputs := x } f c = getEntry h f c := rfl

theorem getEntry_of_frameSet {h : InputHistory} {f : Nat} {fs : FrameSet}
    (hfs : getFrameSet h f = some fs) (c : Nat) :
    getEntry h f c = lookupEntry c fs.inputs := by
  unfold getEntry
  rw [hfs]
  rfl

theorem confirmedAt_elim {h : InputHistory} {f c : Nat} (hc : confirmedAt h f c = true) :
    ∃ fs e, getFrameSet h f = some fs ∧ lookupEntry c fs.inputs = some e ∧ e.confirmed = true := by
  unfold confirmedAt isInputConfirmed at hc
  split at hc
  next e hge =>
      unfold getEntry at hge
      cases hfs : getFrameSet h f with
      | none => rw [hfs] at hge; cases hge
      | some fs =>
          rw [hfs] at hge
          simp only [Option.some_bind] at hge
          exact ⟨fs, e, rfl, hge, hc⟩
  next => cases hc

theorem getOrCreate_existing {h : InputHistory} {f : Nat} {fs : FrameSet}
    (hfs : getFrameSet h f = some fs) : getOrCreateFrameSet h f = (h, fs) := by
  unfold getOrCreateFrameSet
  rw [hfs]

theorem getEntry_storeLocal_same (h : InputHistory) (f c c' : Nat) (d : InputData)
    {fs : FrameSet} (hfs : getFrameSet h f = some fs) :
    getEntry (storeLocalInput h f c' d) f c
      = (if c' = c then some { data := d, confirmed := true } else lookupEntry c fs.inputs) := by
  unfold storeLocalInput
  simp only [getOrCreate_existing hfs]
  rw [getEntry_set_lastKnown]
  by_cases hcc : c' = c
  · subst hcc
    simp [getEntry_put_upsert_self hfs]
  · simp only [hcc, if_neg]
    simp [getEntry_put_upsert_other hfs c c' _ hcc]

theorem storePredicted_confirmed_noop (h : InputHistory) (f c : Nat) (d : InputData)
    {fs : FrameSet} {e : InputEntry} (hfs : getFrameSet h f = some fs)
    (hle : lookupEntry c fs.inputs = some e) (hconf : e.confirmed = true) :
    storePredictedInput h f c d = h := by
  unfold storePredictedInput
  simp only [getOrCreate_existing hfs]
  simp [hle, hconf]

theorem getEntry_storePredicted_same_other (h : InputHistory) (f c c' : Nat) (d : InputData)
    (hne : c' ≠ c) {fs : FrameSet} (hfs : getFrameSet h f = some fs) :
    getEntry (storePredictedInput h f c' d) f c = lookupEntry c fs.inputs := by
  unfold storePredictedInput
  simp only [getOrCreate_existing hfs]
  cases hle : lookupEntry c' fs.inputs with
  | some e =>
      by_cases hc : e.confirmed
      · simp only [hle, hc, if_pos]
        exact getEntry_of_frameSet hfs c
      · simp only [hle, hc, if_neg]
        exact getEntry_put_upsert_other hfs c c' _ hne
  | none =>
      simp only [hle]
      exact getEntry_put_upsert_other hfs c c' _ hne

theorem confirm_preserves_confirmed_same (h : InputHistory) (f c c' : Nat) (d : InputData)
    {fs : FrameSet} {e : InputEntry} (hfs : getFrameSet h f = some fs)
    (hle : lookupEntry c fs.inputs = some e) (hconf : e.confirmed = true) :
    confirmedAt (confirmInput h f c' d).1 f c = true := by
  have hself : confirmedAt h f c = true := by
    unfold confirmedAt isInputConfirmed
    rw [getEntry_of_frameSet hfs, hle]
    exact hconf
  by_cases hcc : c' = c
  · subst hcc
    unfold confirmInput
    simp [hfs, hle, hconf, hself]
  · cases hle' : lookupEntry c' fs.inputs with
    | none =>
        unfold confirmInput
        simp [hfs, hle', hself]
    | some e' =>
        by_cases hc' : e'.confirmed
        · unfold confirmInput
          simp [hfs, hle', hc', hself]
        · unfold confirmInput
          simp only [hfs, hle']
          rw [if_neg hc']
          show confirmedAt
            (putFrameSet h
              { fs with inputs := upsertEntry c' { data := d, confirmed := true } fs.inputs }) f c = true
          unfold confirmedAt isInputConfirmed
          rw [getEntry_put_upsert_other hfs c c' _ hcc, hle]
          exact hconf

theorem storePredicted_capacity (h : InputHistory) (f c : Nat) (d : InputData) :
    (storePredictedInput h f c d).capacity = h.capacity := by
  have hcap := getOrCreate_capacity h f
  unfold storePredictedInput
  rcases hoc : getOrCreateFrameSet h f with ⟨h1, fs⟩
  rw [hoc] at hcap
  simp only [hoc]
  split
  · split
    · exact hcap
    · exact hcap
  · exact hcap

theorem applyOp_capacity (h : InputHistory) (op : HOp) : (applyOp h op).capacity = h.capacity := by
  cases op with
  | storeLocal f c d => exact getOrCreate_capacity h f
  | storePredicted f c d => exact storePredicted_capacity h f c d
  | confirm f c d =>
      simp only [applyOp]
      unfold confirmInput
      split
      · rfl
      · split
        · rfl
        · split
          · rfl
          · rfl
  | clearOld f => rfl

theorem applyOp_preserves_confirmed (h : InputHistory) (op : HOp) (f c : Nat)
    (hop : opIsStoreOrConfirm op = true)
    (hnoev : opFrame op % h.capacity = f % h.capacity → opFrame op = f)
    (hc : confirmedAt h f c = true) :
    confirmedAt (applyOp h op) f c = true := by
  obtain ⟨fs, e, hfs, hle, hconf⟩ := confirmedAt_elim hc
  cases op with
  | clearOld f' => cases hop
  | storeLocal f' c' d =>
      simp only [applyOp]
      by_cases hsame : f' % h.capacity = f % h.capacity
      · have hf' : f' = f := hnoev hsame
        subst hf'
        unfold confirmedAt isInputConfirmed
        rw [getEntry_storeLocal_same h f' c c' d hfs]
        by_cases hcc : c' = c
        · simp [hcc]
        · simp [hcc, hle, hconf]
      · unfold confirmedAt isInputConfirmed getEntry
        rw [getFrameSet_storeLocal_other h f' c' d f hsame, hfs]
        simp [hle, hconf]
  | storePredicted f' c' d =>
      simp only [applyOp]
      by_cases hsame : f' % h.capacity = f % h.capacity
      · have hf' : f' = f := hnoev hsame
        subst hf'
        by_cases hcc : c' = c
        · subst hcc
          rw [storePredicted_confirmed_noop h f' c' d hfs hle hconf]
          exact hc
        · unfold confirmedAt isInputConfirmed
          rw [getEntry_storePredicted_same_other h f' c c' d hcc hfs, hle]
          exact hconf
      · unfold confirmedAt isInputConfirmed getEntry
        rw [getFrameSet_storePredicted_other h f' c' d f hsame, hfs]
        simp [hle, hconf]
  | confirm f' c' d =>
      simp only [applyOp]
      by_cases hsame : f' % h.capacity = f % h.capacity
      · have hf' : f' = f := hnoev hsame
        subst hf'
        exact confirm_preserves_confirmed_same h f' c c' d hfs hle hconf
      · unfold confirmedAt isInputConfirmed getEntry
        rw [getFrameSet_confirm_other h f' c' d f hsame, hfs]
        simp [hle, hconf]

theorem applyOps_preserves_confirmed (f c : Nat) :
    ∀ (ops : List HOp) (h : InputHistory),
    (∀ op ∈ ops, opIsStoreOrConfirm op = true
      ∧ (opFrame op % h.capacity = f % h.capacity → opFrame op = f)) →
    confirmedAt h f c = true → confirmedAt (applyOps ops h) f c = true := by
  intro ops
  induction ops with
  | nil => intro h _ hc; exact hc
  | cons op rest ih =>
      intro h hops hc
      have hop := hops op (List.mem_cons_self op rest)
      have hstep := applyOp_preserves_confirmed h op f c hop.1 hop.2 hc
      have hcap := applyOp_capacity h op
      show confirmedAt (applyOps rest (applyOp h op)) f c = true
      apply ih (applyOp h op) _ hstep
      intro op' hmem
      rw [hcap]
      exact hops op' (List.mem_cons_of_mem op hmem)

/-- C4 (amended): for operation sequences built from storeLocalInput,
storePredictedInput and confirmInput in which no operation writes at a
different frame that maps to the same ring slot as (f, c)'s frame (no
eviction of the slot), a slot holding a CONFIRMED input stays CONFIRMED
forever; and storePredictedInput on a slot holding a CONFIRMED input is
a no-op, so a PREDICTED write never replaces CONFIRMED data. -/
theorem claim4_confirmed_never_overwritten (ops : List HOp) (h : InputHistory) (f c : Nat)
    (hops : ∀ op ∈ ops, opIsStoreOrConfirm op = true
      ∧ (opFrame op % h.capacity = f % h.capacity → opFrame op = f))
    (hc : confirmedAt h f c = true) :
    confirmedAt (applyOps ops h) f c = true
    ∧ ∀ d, storePredictedInput h f c d = h := by
  constructor
  · exact applyOps_preserves_confirmed f c ops h hops hc
  · intro d
    obtain ⟨fs, e, hfs, hle, hconf⟩ := confirmedAt_elim hc
    exact storePredicted_confirmed_noop h f c d hfs hle hconf

/-- C4 counterexample: with ring capacity 4, a slot confirmed at
(frame 1, client 7) is evicted by a store at frame 5 (same ring slot)
and then re-created by a predicted store at frame 1, after which the
(1, 7) slot is present but UNCONFIRMED — a sequence of only the three
claimed operations under which a CONFIRMED slot becomes UNCONFIRMED. -/
theorem claim4_counterexample_ring_eviction :
    confirmedAt cexH0 1 7 = true
    ∧ (∀ op ∈ cexOps, opIsStoreOrConfirm op = true)
    ∧ presentUnconfirmedAt (applyOps cexOps cexH0) 1 7 = true :=
  ⟨by decide, by decide, by decide⟩

/-- C4 witness: a concrete eviction-free sequence over a confirmed
slot keeps it confirmed, and a predicted store on it is a no-op. -/
theorem claim4_witness :
    (∀ op ∈ witOps, opIsStoreOrConfirm op = true
      ∧ (opFrame op % witH0.capacity = 1 % witH0.capacity → opFrame op = 1))
    ∧ confirmedAt witH0 1 7 = true
    ∧ confirmedAt (applyOps witOps witH0) 1 7 = true
    ∧ storePredictedInput witH0 1 7 dC = witH0 :=
  ⟨by decide, by decide,
   (claim4_confirmed_never_overwritten witOps witH0 1 7 (by decide) (by decide)).1,
   (claim4_confirmed_never_overwritten witOps witH0 1 7 (by decide) (by decide)).2 dC⟩

theorem filterMap_map_none {α β γ : Type} (g : α → β) (ev : β → Option γ)
    (hev : ∀ a, ev (g a) = none) (l : List α) : (l.map g).filterMap ev = [] := by
  induction l with
  | nil => rfl
  | cons a rest ih => simp [List.filterMap_cons, hev, ih]

theorem resimFrames_spec {W : Type} (tickFn : W → Nat → List TickInput → W) :
    ∀ (n f : Nat) (pm : PMState W),
    (resimFrames tickFn pm f n).1.localFrame = pm.localFrame
    ∧ ((resimFrames tickFn pm f n).2).filterMap evTickFrame = List.range' f n
    ∧ ((resimFrames tickFn pm f n).2).filterMap evResimFrame = List.range' f n
    ∧ ((resimFrames tickFn pm f n).2).filterMap evLoadOrTickFrame = List.range' f n := by
  intro n
  induction n with
  | zero => intro f pm; exact ⟨rfl, rfl, rfl, rfl⟩
  | succ n ih =>
      intro f pm
      obtain ⟨ih1, ih2, ih3, ih4⟩ := ih (f + 1)
        ({ pm with
            history := (getFrameInputs pm.history f).1,
            world := tickFn pm.world f ((getFrameInputs pm.history f).2.map
              (fun p => { clientId := p.1, data := p.2 : TickInput })) })
      refine ⟨?_, ?_, ?_, ?_⟩
      · exact ih1
      · show ((((pm.lifecycleEvents.filter (fun p => p.1 = f)).map (fun p => PMEvent.lifecycle p.2)))
            ++ PMEvent.tickCall f _ :: PMEvent.resimulated f :: _).filterMap evTickFrame
            = List.range' f (n + 1)
        rw [List.filterMap_append, filterMap_map_none _ _ (fun p => rfl),
          List.filterMap_cons, List.filterMap_cons]
        simp only [evTickFrame]
        rw [ih2, List.range'_succ]
        rfl
      · show ((((pm.lifecycleEvents.filter (fun p => p.1 = f)).map (fun p => PMEvent.lifecycle p.2)))
            ++ PMEvent.tickCall f _ :: PMEvent.resimulated f :: _).filterMap evResimFrame
            = List.range' f (n + 1)
        rw [List.filterMap_append, filterMap_map_none _ _ (fun p => rfl),
          List.filterMap_cons, List.filterMap_cons]
        simp only [evResimFrame]
        rw [ih3, List.range'_succ]
        rfl
      · show ((((pm.lifecycleEvents.filter (fun p => p.1 = f)).map (fun p => PMEvent.lifecycle p.2)))
            ++ PMEvent.tickCall f _ :: PMEvent.resimulated f :: _).filterMap evLoadOrTickFrame
            = List.range' f (n + 1)
        rw [List.filterMap_append, filterMap_map_none _ _ (fun p => rfl),
          List.filterMap_cons, List.filterMap_cons]
        simp only [evLoadOrTickFrame]
        rw [ih4, List.range'_succ]
        rfl

/-- C5 (amended): a rollback from local frame L to target frame T
restores the snapshot tagged T — the state saved before frame T first
ran — and then resimulates exactly the frames T through L in ascending
order, with STORE.tick(f, inputs) called and on_frame_resimulated(f)
emitted once for each resimulated frame f, and local_frame equal to L
afterwards. -/
theorem claim5_rollback_resimulates_from_target {W : Type}
    (tickFn : W → Nat → List TickInput → W) (pm : PMState W) (T : Nat) (snap : W)
    (hsnap : lookupSnap pm.snapshots T = some snap) :
    (executeRollback tickFn pm T).toOption.map (fun p => p.1.localFrame) = some pm.localFrame
    ∧ (executeRollback tickFn pm T).toOption.map (fun p => p.2.filterMap evLoadOrTickFrame)
        = some (T :: List.range' T (pm.localFrame + 1 - T))
    ∧ (executeRollback tickFn pm T).toOption.map (fun p => p.2.filterMap evTickFrame)
        = some (List.range' T (pm.localFrame + 1 - T))
    ∧ (executeRollback tickFn pm T).toOption.map (fun p => p.2.filterMap evResimFrame)
        = some (List.range' T (pm.localFrame + 1 - T)) := by
  obtain ⟨r1, r2, r3, r4⟩ := resimFrames_spec tickFn (pm.localFrame + 1 - T) T
    ({ pm with world := snap })
  refine ⟨?_, ?_, ?_, ?_⟩
  · simp only [executeRollback, hsnap, Except.toOption, Option.map_some']
    exact congrArg some r1
  · simp only [executeRollback, hsnap, Except.toOption, Option.map_some']
    rw [List.filterMap_append, filterMap_map_none _ _ (fun p => rfl), List.filterMap_cons]
    simp only [evLoadOrTickFrame]
    rw [r4]
    rfl
  · simp only [executeRollback, hsnap, Except.toOption, Option.map_some']
    rw [List.filterMap_append, filterMap_map_none _ _ (fun p => rfl), List.filterMap_cons]
    simp only [evTickFrame]
    rw [r2]
    rfl
  · simp only [executeRollback, hsnap, Except.toOption, Option.map_some']
    rw [List.filterMap_append, filterMap_map_none _ _ (fun p => rfl), List.filterMap_cons]
    simp only [evResimFrame]
    rw [r3]
    rfl

/-- C5 counterexample: rolling the concrete manager back from local
frame 3 to frame 1 resimulates frames 1, 2 and 3 — the behaviour the
repository prediction-manager tests require — whereas the claim says
exactly frames T+1 through L, i.e. [2, 3], would be resimulated. -/
theorem claim5_counterexample_target_frame_also_resimulated :
    (executeRollback tfEx pmEx3 1).toOption.map (fun p => p.2.filterMap evResimFrame)
      = some [1, 2, 3]
    ∧ some [1, 2, 3]
      ≠ some (List.range' (1 + 1) (pmEx3.localFrame - 1)) := by
  constructor
  · decide
  · decide

/-- C5 witness: the amended theorem applied to the concrete manager
rolled back from local frame 3 to frame 1. -/
theorem claim5_witness :
    lookupSnap pmEx3.snapshots 1 = some 1
    ∧ ((executeRollback tfEx pmEx3 1).toOption.map (fun p => p.1.localFrame)
          = some pmEx3.localFrame
      ∧ (executeRollback tfEx pmEx3 1).toOption.map (fun p => p.2.filterMap evLoadOrTickFrame)
          = some (1 :: List.range' 1 (pmEx3.localFrame + 1 - 1))
      ∧ (executeRollback tfEx pmEx3 1).toOption.map (fun p => p.2.filterMap evTickFrame)
          = some (List.range' 1 (pmEx3.localFrame + 1 - 1))
      ∧ (executeRollback tfEx pmEx3 1).toOption.map (fun p => p.2.filterMap evResimFrame)
          = some (List.range' 1 (pmEx3.localFrame + 1 - 1))) :=
  ⟨by decide, claim5_rollback_resimulates_from_target tfEx pmEx3 1 1 (by decide)⟩

theorem advance_iter_fields {W : Type} (tickFn : W → Nat → List TickInput → W) (M : Nat) :
    ∀ (j : Nat) (pm : PMState W), j ≤ M → pm.enabled = true → pm.maxPredictionFrames = M →
    pm.confirmedFrame = pm.localFrame →
    ((fun q => (advanceFrame tickFn q).1)^[j] pm).enabled = true
    ∧ ((fun q => (advanceFrame tickFn q).1)^[j] pm).maxPredictionFrames = M
    ∧ ((fun q => (advanceFrame tickFn q).1)^[j] pm).confirmedFrame = pm.confirmedFrame
    ∧ ((fun q => (advanceFrame tickFn q).1)^[j] pm).localFrame = pm.localFrame + j := by
  intro j
  induction j with
  | zero => intro pm _ h1 h2 _; exact ⟨h1, h2, rfl, rfl⟩
  | succ j ih =>
      intro pm hj h1 h2 h3
      obtain ⟨i1, i2, i3, i4⟩ := ih pm (by omega) h1 h2 h3
      rw [Function.iterate_succ_apply']
      set q := (fun q => (advanceFrame tickFn q).1)^[j] pm with hq
      have hguard : ¬(q.enabled = false
          ∨ (q.maxPredictionFrames : Int) ≤ (q.localFrame : Int) - (q.confirmedFrame : Int)) := by
        push_neg
        constructor
        · simp [i1]
        · rw [i2, i3, i4, h3]
          push_cast
          omega
      show (advanceFrame tickFn q).1.enabled = true
        ∧ (advanceFrame tickFn q).1.maxPredictionFrames = M
        ∧ (advanceFrame tickFn q).1.confirmedFrame = pm.confirmedFrame
        ∧ (advanceFrame tickFn q).1.localFrame = pm.localFrame + (j + 1)
      unfold advanceFrame
      rw [if_neg hguard]
      refine ⟨i1, i2, i3, ?_⟩
      show q.localFrame + 1 = pm.localFrame + (j + 1)
      omega

/-- C6: advance_frame is a no-op — state unchanged, no snapshot saved,
no STORE.tick call — whenever prediction is disabled or the prediction
depth local_frame - confirmed_frame has reached max_prediction_frames;
consequently, starting at zero depth with max_prediction_frames = M
and no server confirmations, after M calls to advance_frame every
further call leaves the state unchanged. -/
theorem claim6_advance_frame_throttle {W : Type}
    (tickFn : W → Nat → List TickInput → W) (pm : PMState W) :
    ((pm.enabled = false
        ∨ (pm.maxPredictionFrames : Int) ≤ (pm.localFrame : Int) - (pm.confirmedFrame : Int)) →
      advanceFrame tickFn pm = (pm, []))
    ∧ (∀ M k, pm.enabled = true → pm.maxPredictionFrames = M →
        pm.confirmedFrame = pm.localFrame →
        (fun q => (advanceFrame tickFn q).1)^[M + k] pm
          = (fun q => (advanceFrame tickFn q).1)^[M] pm) := by
  constructor
  · intro hcond
    unfold advanceFrame
    rw [if_pos hcond]
  · intro M k h1 h2 h3
    obtain ⟨m1, m2, m3, m4⟩ := advance_iter_fields tickFn M M pm le_rfl h1 h2 h3
    have hfix : (fun q => (advanceFrame tickFn q).1)
        ((fun q => (advanceFrame tickFn q).1)^[M] pm)
        = (fun q => (advanceFrame tickFn q).1)^[M] pm := by
      set q := (fun q => (advanceFrame tickFn q).1)^[M] pm with hq
      have hguard : q.enabled = false
          ∨ (q.maxPredictionFrames : Int) ≤ (q.localFrame : Int) - (q.confirmedFrame : Int) := by
        right
        rw [m2, m3, m4, h3]
        push_cast
        omega
      show (advanceFrame tickFn q).1 = q
      unfold advanceFrame
      rw [if_pos hguard]
    induction k with
    | zero => rfl
    | succ k ihk =>
        have : M + (k + 1) = (M + k) + 1 := rfl
        rw [this, Function.iterate_succ_apply', ihk]
        exact hfix

/-- C6 witness: the no-op cases at concrete managers — the disabled
manager is left exactly unchanged with no tick events, and with
max_prediction_frames = 3 the 4th and 5th calls change nothing. -/
theorem claim6_witness :
    (pmDis.enabled = false
      ∨ (pmDis.maxPredictionFrames : Int) ≤ (pmDis.localFrame : Int) - (pmDis.confirmedFrame : Int))
    ∧ advanceFrame tfEx pmDis = (pmDis, [])
    ∧ (fun q => (advanceFrame tfEx q).1)^[3 + 2] pmEx0
        = (fun q => (advanceFrame tfEx q).1)^[3] pmEx0 :=
  ⟨Or.inl rfl,
   (claim6_advance_frame_throttle tfEx pmDis).1 (Or.inl rfl),
   (claim6_advance_frame_throttle tfEx pmEx0).2 3 2 rfl rfl rfl⟩

theorem resolveAll_some (r : String → Nat) :
    ∀ (l : List ServerInput),
    resolveAll (some r) l = .ok (l.map (fun si => (r si.clientId, si.data))) := by
  intro l
  induction l with
  | nil => rfl
  | cons si rest ih => simp [resolveAll, ih]

/-- C7: a server tick for a frame strictly ahead of the local frame
performs no rollback and returns false; the manager state is unchanged
except that the tick's lifecycle events are recorded, and exactly
those lifecycle events are delivered immediately to the out-of-band
handler (the emitted event list). -/
theorem claim7_future_frame_no_rollback {W : Type} (tickFn : W → Nat → List TickInput → W)
    (r : String → Nat) (pm : PMState W) (frame : Nat) (inputs : List ServerInput)
    (hen : pm.enabled = true) (hfut : pm.localFrame < frame) :
    receiveServerTick tickFn (some r) pm frame inputs
      = Except.ok
          ({ pm with lifecycleEvents := pm.lifecycleEvents
              ++ (inputs.filter isLifecycleInput).map (fun si => (frame, si)) },
           (inputs.filter isLifecycleInput).map PMEvent.lifecycle, false) := by
  unfold receiveServerTick
  rw [hen]
  simp only [Bool.true_eq_false, if_false]
  rw [resolveAll_some]
  simp only [if_pos hfut]

/-- C7 witness: a tick for frame 5 at local frame 0 with one lifecycle
and one game input delivers and records exactly the lifecycle event,
changes nothing else, and returns false. -/
theorem claim7_witness :
    pmEx0.enabled = true
    ∧ pmEx0.localFrame < 5
    ∧ receiveServerTick tfEx (some resEx) pmEx0 5 [siJoin, siGame]
      = Except.ok
          ({ pmEx0 with lifecycleEvents := pmEx0.lifecycleEvents
              ++ ([siJoin, siGame].filter isLifecycleInput).map (fun si => (5, si)) },
           ([siJoin, siGame].filter isLifecycleInput).map PMEvent.lifecycle, false) :=
  ⟨rfl, by decide,
   claim7_future_frame_no_rollback tfEx resEx pmEx0 5 [siJoin, siGame] rfl (by decide)⟩

theorem executeRollback_error_kind {W : Type} (tickFn : W → Nat → List TickInput → W)
    (pm : PMState W) (T : Nat) {e : PMError}
    (he : executeRollback tickFn pm T = .error e) : e = PMError.snapshotMissing := by
  unfold executeRollback at he
  split at he
  · cases he
    rfl
  · cases he

/-- C9 (amended): while prediction is enabled, receive_server_tick
with at least one non-lifecycle game input and no client-id resolver
fails with the missing-resolver programmer error, at any frame; a tick
containing only lifecycle events never produces that error without a
resolver. -/
theorem claim9_missing_resolver_error {W : Type} (tickFn : W → Nat → List TickInput → W)
    (pm : PMState W) (frame : Nat) (inputs : List ServerInput) (hen : pm.enabled = true) :
    ((inputs.any (fun si => !isLifecycleInput si)) = true →
      receiveServerTick tickFn none pm frame inputs = Except.error PMError.missingResolver)
    ∧ ((inputs.all isLifecycleInput) = true →
      receiveServerTick tickFn none pm frame inputs ≠ Except.error PMError.missingResolver) := by
  constructor
  · intro hany
    have hne : inputs.filter (fun si => !isLifecycleInput si) ≠ [] := by
      intro hnil
      rw [List.filter_eq_nil_iff] at hnil
      rw [List.any_eq_true] at hany
      obtain ⟨si, hmem, hsi⟩ := hany
      exact hnil si hmem hsi
    unfold receiveServerTick
    rw [hen]
    simp only [Bool.true_eq_false, if_false]
    cases hg : inputs.filter (fun si => !isLifecycleInput si) with
    | nil => exact absurd hg hne
    | cons si rest => rfl
  · intro hall hcontra
    have hg : inputs.filter (fun si => !isLifecycleInput si) = [] := by
      rw [List.filter_eq_nil_iff]
      intro si hmem
      rw [List.all_eq_true] at hall
      simp [hall si hmem]
    unfold receiveServerTick at hcontra
    rw [hen] at hcontra
    simp only [Bool.true_eq_false, if_false] at hcontra
    rw [hg] at hcontra
    simp only [resolveAll] at hcontra
    by_cases hfut : pm.localFrame < frame
    · rw [if_pos hfut] at hcontra
      cases hcontra
    · rw [if_neg hfut] at hcontra
      split at hcontra
      · split at hcontra
        next heq =>
            cases hcontra
            exact absurd (executeRollback_error_kind tickFn _ frame heq) (by decide)
        next => cases hcontra
      · cases hcontra

/-- C9 counterexample: with prediction disabled, a tick carrying a
non-lifecycle game input and no resolver does not fail — it returns
false — so the claim's unconditional "whenever" does not hold. -/
theorem claim9_counterexample_disabled_returns_ok :
    isLifecycleInput siGame = false
    ∧ pmDis.enabled = false
    ∧ receiveServerTick tfEx none pmDis 1 [siGame] = Except.ok (pmDis, [], false) :=
  ⟨rfl, rfl, rfl⟩

/-- C9 witness: on the enabled concrete manager, a game input without
a resolver raises the missing-resolver error and a lifecycle-only tick
does not. -/
theorem claim9_witness :
    pmEx3.enabled = true
    ∧ ([siGame].any (fun si => !isLifecycleInput si) = true
        ∧ receiveServerTick tfEx none pmEx3 1 [siGame] = Except.error PMError.missingResolver)
    ∧ ([siJoin].all isLifecycleInput = true
        ∧ receiveServerTick tfEx none pmEx3 1 [siJoin] ≠ Except.error PMError.missingResolver) :=
  ⟨rfl,
   ⟨by decide, (claim9_missing_resolver_error tfEx pmEx3 1 [siGame] rfl).1 (by decide)⟩,
   ⟨by decide, (claim9_missing_resolver_error tfEx pmEx3 1 [siJoin] rfl).2 (by decide)⟩⟩
